import Mathlib

/-!
Verification of the `com-impl` / `derive-com-impl` code generator.

The definitions below are a shallow embedding of the repository's code:

* `Refcount` and its operations model `com-impl/src/lib.rs` (an `AtomicUsize`
  counter whose `add_ref`/`release` return the post-operation count cast to
  `u32`).  Machine integers are modelled as `Nat` with explicit reductions
  modulo `2^64` (the pointer-sized store) and `2^32` (the returned `u32`);
  wrapping (release-mode) arithmetic is modelled.
* `ComObj` and the trampoline functions model the `IUnknown` implementation
  emitted by `#[derive(ComImpl)]` (`derive-com-impl/src/derive.rs`,
  `quote_iunknown_impl`): `AddRef`, `Release` (which frees the box when the
  truncated count reaches zero) and `QueryInterface`.
* `determine_vtbl_member`, `determine_refcount_member`, `parse_members`,
  `create_raw_params` and `determine_interfaces` model the schema analysis in
  `derive-com-impl/src/derive.rs`.
* `validate_sig`, `determine_mut`, `determine_name`,
  `determine_panic_behavior`, `ComFunction.parse`, `parse_all` and
  `quote_stub_call` model the per-method analysis and stub synthesis in
  `derive-com-impl/src/com_impl.rs`.
-/

/-- `2^32`, the modulus of the `u32` values returned by `add_ref`/`release`. -/
def U32_MOD : Nat := 4294967296

/-- `2^64`, the modulus of the `AtomicUsize` that stores the count. -/
def USIZE_MOD : Nat := 18446744073709551616

/-- Models `com_impl::Refcount`: a pointer-sized unsigned counter. -/
structure Refcount where
  count : Nat
deriving DecidableEq

/-- Models `impl Default for Refcount`: `AtomicUsize::new(1)`. -/
def Refcount.default : Refcount := ⟨1⟩

/-- Models `Refcount::add_ref`: `self.count.fetch_add(1, Acquire) as u32 + 1`.
The first component is the returned `u32`, the second the updated counter
(the `usize` store wraps at `2^64`, the returned value at `2^32`). -/
def Refcount.add_ref (rc : Refcount) : Nat × Refcount :=
  (((rc.count % U32_MOD) + 1) % U32_MOD, ⟨(rc.count + 1) % USIZE_MOD⟩)

/-- Models `Refcount::release`: `self.count.fetch_sub(1, Release) as u32 - 1`
(wrapping subtraction on the `u32` cast of the old value). -/
def Refcount.release (rc : Refcount) : Nat × Refcount :=
  (((rc.count % U32_MOD) + (U32_MOD - 1)) % U32_MOD,
   ⟨(rc.count + (USIZE_MOD - 1)) % USIZE_MOD⟩)

/-- State of one generated COM object: its refcount field and whether its
backing `Box` allocation is still live. -/
structure ComObj where
  refcount : Refcount
  alive : Bool
deriving DecidableEq

/-- Models the generated `__com_impl__IUnknown__AddRef` trampoline:
it calls `add_ref` on the refcount member and returns the result. -/
def ComObj.addRefTramp (o : ComObj) : Nat × ComObj :=
  ((o.refcount.add_ref).1, { o with refcount := (o.refcount.add_ref).2 })

/-- Models the generated `__com_impl__IUnknown__Release` trampoline:
it calls `release`, frees the box (`Box::from_raw`) when the returned
truncated count is `0`, and returns that count. -/
def ComObj.releaseTramp (o : ComObj) : Nat × ComObj :=
  ((o.refcount.release).1,
   { refcount := (o.refcount.release).2,
     alive := if (o.refcount.release).1 = 0 then false else o.alive })

/-- Models the object produced by the generated `create_raw` constructor:
`refcount: Default::default()` and a fresh live box. -/
def createRawState : ComObj := { refcount := Refcount.default, alive := true }

/-- What the `QueryInterface` trampoline wrote into the output slot `ppv`. -/
inductive SlotWrite
  | untouched
  | wroteNull
  | wroteThis
deriving DecidableEq

/-- `winapi::shared::winerror::S_OK`. -/
def S_OK : Int := 0

/-- `winapi::shared::winerror::E_NOINTERFACE` (`0x80004002` as `i32`). -/
def E_NOINTERFACE : Int := -2147467262

/-- `winapi::shared::winerror::E_POINTER` (`0x80004003` as `i32`). -/
def E_POINTER : Int := -2147467261

/-- Models the generated `__com_impl__IUnknown__QueryInterface` trampoline.
`iids` is the list of interface identifiers compiled into the
`IsEqualIID(..) || ..` chain, `riid` the queried identifier, `ppvIsNull`
whether the output slot pointer is null.  Returns the `HRESULT`, what was
written to the slot, and the (unchanged) object state. -/
def queryInterfaceTramp (o : ComObj) (iids : List Nat) (riid : Nat)
    (ppvIsNull : Bool) : Int × SlotWrite × ComObj :=
  if ppvIsNull then (E_POINTER, SlotWrite.untouched, o)
  else if iids.any (fun i => riid == i) then (S_OK, SlotWrite.wroteThis, o)
  else (E_NOINTERFACE, SlotWrite.wroteNull, o)

/-- Iterated `AddRef` calls: state after `k` calls starting from `o`. -/
def incIter (o : ComObj) : Nat → ComObj
  | 0 => o
  | k + 1 => ((incIter o k).addRefTramp).2

/-- Return value of the `(k+1)`-th `AddRef` call starting from `o`. -/
def incRet (o : ComObj) (k : Nat) : Nat := ((incIter o k).addRefTramp).1

/-- Iterated `Release` calls: state after `j` calls starting from `o`. -/
def decIter (o : ComObj) : Nat → ComObj
  | 0 => o
  | j + 1 => ((decIter o j).releaseTramp).2

/-- Return value of the `(j+1)`-th `Release` call starting from `o`. -/
def decRet (o : ComObj) (j : Nat) : Nat := ((decIter o j).releaseTramp).1

/-- One named field of the derive input struct: its identifier, its declared
type (as written), and the last path segment of that type (`ty_stem`),
`none` when the type is not a path type. -/
structure StructField where
  name : String
  ty : String
  stem : Option String
deriving DecidableEq

/-- Models `ComImpl::determine_vtbl_member`: the first field whose type stem
is `VTable`, or the source's error. -/
def determine_vtbl_member (fields : List StructField) : Except String String :=
  match fields.find? (fun f => f.stem == some ("VTable")) with
  | some f => Except.ok f.name
  | none => Except.error ("Could not find a com_impl::VTable member")

/-- Models `ComImpl::determine_refcount_member`: the first field whose type
stem is `Refcount`, or the source's error. -/
def determine_refcount_member (fields : List StructField) : Except String String :=
  match fields.find? (fun f => f.stem == some ("Refcount")) with
  | some f => Except.ok f.name
  | none => Except.error ("Could not find a com_impl::Refcount member")

/-- Models `ComImpl::parse_members`: every field whose name is neither the
chosen vtable member nor the chosen refcount member, in declaration order. -/
def parse_members (fields : List StructField) (vtbl refc : String) : List StructField :=
  fields.filter (fun f => !(f.name == vtbl) && !(f.name == refc))

/-- The parameter list `(name: ty, ...)` of the generated `create_raw`
constructor (`ComImpl::quote_create_raw` maps `quote_param` over
`other_members`). -/
def create_raw_params (fields : List StructField) :
    Except String (List (String × String)) :=
  match determine_vtbl_member fields with
  | Except.error e => Except.error e
  | Except.ok v =>
    match determine_refcount_member fields with
    | Except.error e => Except.error e
    | Except.ok r =>
      Except.ok ((parse_members fields v r).map (fun f => (f.name, f.ty)))

/-- Models `ComImpl::determine_interfaces`.  `explicitList` is the content of
an `#[interfaces(...)]` attribute when present; `vtblGeneric` is the name of
the generic argument of the `VTable` field's type.  Interfaces are identified
by name; the `winapi::um::unknwnbase::IUnknown` path is rendered as
`"IUnknown"`. -/
def determine_interfaces (explicitList : Option (List String))
    (vtblGeneric : String) : Except String (List String) :=
  match explicitList with
  | some l => Except.ok (("IUnknown") :: l)
  | none =>
    if vtblGeneric.endsWith ("Vtbl") then
      if vtblGeneric.dropRight 4 = ("IUnknown") then Except.ok [("IUnknown")]
      else Except.ok [("IUnknown"), vtblGeneric.dropRight 4]
    else
      Except.error
        ("Could not determine the COM interfaces you would like to implement.")

/-- ASCII range test, `lo ≤ code(c) ≤ hi`; used to mirror the Rust character
range patterns (`'0'...'9'` is 48–57, `'A'...'Z'` is 65–90, `'a'...'z'` is
97–122). -/
def charIn (lo hi : Nat) (c : Char) : Bool :=
  decide (lo ≤ c.toNat) && decide (c.toNat ≤ hi)

/-- The Rust pattern `'0'...'9'`. -/
def isDigitC (c : Char) : Bool := charIn 48 57 c

/-- The Rust pattern `'A'...'Z'`. -/
def isUpperC (c : Char) : Bool := charIn 65 90 c

/-- The Rust pattern `'a'...'z'`. -/
def isLowerC (c : Char) : Bool := charIn 97 122 c

/-- Models `char::to_ascii_uppercase`. -/
def toAsciiUpper (c : Char) : Char :=
  if isLowerC c then Char.ofNat (c.toNat - 32) else c

/-- A character the name-derivation loop accepts: alphanumeric or
underscore. -/
def validComChar (c : Char) : Bool :=
  isDigitC c || isUpperC c || isLowerC c || (c == '_')

/-- The error produced by `ComFunction::determine_name` on any other
character. -/
def comNameErrMsg : String :=
  "Identifier (\x7b\x7d) that wouldn\x27t be used in a COM function name found. Please use #[com_name] to specify the function it maps to explicitly."

/-- Models the character loop of `ComFunction::determine_name`: `is_sta` is
the `is_start` flag (initially `true`); digits and uppercase letters are
copied (leaving the flag unchanged), a lowercase letter is upper-cased when
the flag is set (clearing it) and copied otherwise, an underscore sets the
flag and is dropped, and anything else is an error. -/
def determine_name_chars : Bool → List Char → Except String (List Char)
  | _, [] => Except.ok []
  | is_sta, c :: rest =>
    if isDigitC c then (determine_name_chars is_sta rest).map (fun r => c :: r)
    else if isUpperC c then
      (determine_name_chars is_sta rest).map (fun r => c :: r)
    else if isLowerC c && !is_sta then
      (determine_name_chars is_sta rest).map (fun r => c :: r)
    else if isLowerC c && is_sta then
      (determine_name_chars false rest).map (fun r => toAsciiUpper c :: r)
    else if c == '_' then determine_name_chars true rest
    else Except.error comNameErrMsg

/-- Models `ComFunction::determine_name`: an explicit `#[com_name = "..."]`
override takes precedence; otherwise the method identifier goes through the
character loop. -/
def determine_name (override : Option String) (ident : String) :
    Except String String :=
  match override with
  | some n => Except.ok n
  | none => (determine_name_chars true ident.data).map String.mk

/-- Splits a character list on underscores (the underscore-delimited
segments of an identifier); used to state the specification's description of
name derivation. -/
def splitSegs : List Char → List (List Char)
  | [] => [[]]
  | c :: rest =>
    if c = '_' then [] :: splitSegs rest
    else
      match splitSegs rest with
      | [] => [[c]]
      | s :: ss => (c :: s) :: ss

/-- Upper-cases the first character of a segment, leaving the rest
unchanged. -/
def specCapSeg : List Char → List Char
  | [] => []
  | c :: rest => toAsciiUpper c :: rest

/-- The specification's described name derivation: upper-case the first
letter of each underscore-delimited segment, leave the remaining letters
unchanged, and remove the underscores. -/
def spec_derive_name (cs : List Char) : List Char :=
  ((splitSegs cs).map specCapSeg).flatten

/-- Upper-cases the first lowercase letter of a segment, copying the
characters before it (digits and uppercase letters) and after it
unchanged. -/
def capFirstLower : List Char → List Char
  | [] => []
  | c :: rest =>
    if isLowerC c then toAsciiUpper c :: rest else c :: capFirstLower rest

/-- The transform `determine_name` actually performs on a valid identifier:
in each underscore-delimited segment the first lowercase letter is
upper-cased and everything else is copied; underscores are removed. -/
def amended_com_name (cs : List Char) : List Char :=
  ((splitSegs cs).map capFirstLower).flatten

/-- `amended_com_name` with the first segment left entirely unchanged
(the state of the loop once `is_start` has been cleared). -/
def tailName (cs : List Char) : List Char :=
  match splitSegs cs with
  | [] => []
  | s :: ss => s ++ (ss.map capFirstLower).flatten

/-- The receiver of a method in a `#[com_impl]` block: `&self`/`&mut self`,
`self` by value, or no receiver at all. -/
inductive Receiver
  | selfRef (isMut : Bool)
  | selfValue
  | noReceiver
deriving DecidableEq

/-- A (well-formed) attribute on a method of a `#[com_impl]` block. -/
inductive MethodAttr
  | comName (v : String)
  | panicAbort
  | panicResult (expr : String)
deriving DecidableEq

/-- The parts of a parsed `ImplItemMethod` signature that the generator
inspects. -/
structure MethodSig where
  ident : String
  receiver : Receiver
  variadic : Bool
  genericCount : Nat
  whereClause : Bool
  isConst : Bool
  isAsync : Bool
  attrs : List MethodAttr
deriving DecidableEq

/-- Diagnostic of `validate_sig` for a variadic method. -/
def variadicMsg : String := "Variadic methods are not allowed in COM"

/-- Diagnostic of `validate_sig` for a generic method. -/
def genericMsg : String :=
  "Generic types and lifetime parameters are not allowed on COM methods."

/-- Diagnostic of `validate_sig` for a method with a where clause. -/
def whereMsg : String := "Where clauses are not allowed on COM methods."

/-- Diagnostic of `validate_sig` for a const method. -/
def constMsg : String := "COM methods may not be const fns"

/-- Diagnostic of `validate_sig` for an async method. -/
def asyncMsg : String := "COM methods may not be async fns"

/-- Diagnostic of `determine_mut` when the receiver is not a reference
(`format!` of the method identifier). -/
def mutErrMsg (ident : String) : String :=
  ("A COM method must take \x60self\x60 by ref. (fn ") ++ ident ++ (")")

/-- Models `ComFunction::validate_sig`: rejects variadic, generic,
where-clause, const and async methods, in that order. -/
def validate_sig (m : MethodSig) : Except String Unit :=
  if m.variadic then Except.error variadicMsg
  else if 0 < m.genericCount then Except.error genericMsg
  else if m.whereClause then Except.error whereMsg
  else if m.isConst then Except.error constMsg
  else if m.isAsync then Except.error asyncMsg
  else Except.ok ()

/-- Models `ComFunction::determine_mut`: the first input must be a `self`
reference; its mutability is returned. -/
def determine_mut (m : MethodSig) : Except String Bool :=
  match m.receiver with
  | Receiver.selfRef mu => Except.ok mu
  | _ => Except.error (mutErrMsg m.ident)

/-- The value of the first `#[com_name = "..."]` attribute, if any (the scan
at the top of `ComFunction::determine_name`). -/
def find_com_name : List MethodAttr → Option String
  | [] => none
  | MethodAttr.comName v :: _ => some v
  | _ :: rest => find_com_name rest

/-- The parsed failure policy of a method (`enum OnPanic`): no guarding,
abort on unwind, or evaluate a fallback expression on unwind. -/
inductive PanicPolicy
  | nothing
  | abort
  | result (expr : String)
deriving DecidableEq

/-- Models `ComFunction::determine_panic_behavior`: the first `#[panic(..)]`
attribute decides (other attributes are skipped); no attribute means
`OnPanic::Nothing`. -/
def determine_panic_behavior : List MethodAttr → PanicPolicy
  | [] => PanicPolicy.nothing
  | MethodAttr.panicAbort :: _ => PanicPolicy.abort
  | MethodAttr.panicResult e :: _ => PanicPolicy.result e
  | MethodAttr.comName _ :: rest => determine_panic_behavior rest

/-- The fields of `struct ComFunction` that the claims are about. -/
structure ParsedFn where
  is_mut : Bool
  com_name : String
  panic_behavior : PanicPolicy
deriving DecidableEq

/-- Models `ComFunction::parse`: `validate_sig`, then `determine_mut`, then
`determine_name`, then `determine_panic_behavior`, propagating the first
error. -/
def ComFunction.parse (m : MethodSig) : Except String ParsedFn :=
  match validate_sig m with
  | Except.error e => Except.error e
  | Except.ok _ =>
    match determine_mut m with
    | Except.error e => Except.error e
    | Except.ok mu =>
      match determine_name (find_com_name m.attrs) m.ident with
      | Except.error e => Except.error e
      | Except.ok nm =>
        Except.ok
          { is_mut := mu, com_name := nm,
            panic_behavior := determine_panic_behavior m.attrs }

/-- Models `ComFunction::parse_all`: parses every method of the block,
aborting on the first failure. -/
def parse_all : List MethodSig → Except String (List ParsedFn)
  | [] => Except.ok []
  | m :: rest =>
    match ComFunction.parse m with
    | Except.error e => Except.error e
    | Except.ok f =>
      match parse_all rest with
      | Except.error e => Except.error e
      | Except.ok fs => Except.ok (f :: fs)

/-- Outcome of running the user-supplied method body: a value, or a panic
that starts unwinding. -/
inductive BodyOutcome (α : Type)
  | ok (v : α)
  | panicked

/-- Outcome of the generated stub as seen at the foreign boundary: a
returned value, an unwind crossing the boundary, or process termination
after writing the given diagnostic. -/
inductive StubOutcome (α : Type)
  | ret (v : α)
  | unwound
  | aborted (diag : String)

/-- The diagnostic built by `ComFunction::abort_message`. -/
def abort_message (tyName fnName : String) : String :=
  ("User-implemented COM method for ") ++ tyName ++ ("::") ++ fnName ++
    (" panicked. Aborting!")

/-- Models `ComFunction::quote_stub_call`: how the generated stub wraps the
body call.  `OnPanic::Nothing` emits the bare call; `OnPanic::Abort` wraps it
in `catch_unwind`, writing `abortMsg` to stderr and calling
`process::abort()` on an unwind; `OnPanic::Hresult` wraps it in
`catch_unwind` and evaluates the fallback expression (`evalExpr expr`) on an
unwind. -/
def quote_stub_call {α : Type} (p : PanicPolicy) (abortMsg : String)
    (evalExpr : String → α) (body : BodyOutcome α) : StubOutcome α :=
  match p with
  | PanicPolicy.nothing =>
    match body with
    | BodyOutcome.ok v => StubOutcome.ret v
    | BodyOutcome.panicked => StubOutcome.unwound
  | PanicPolicy.abort =>
    match body with
    | BodyOutcome.ok v => StubOutcome.ret v
    | BodyOutcome.panicked => StubOutcome.aborted abortMsg
  | PanicPolicy.result e =>
    match body with
    | BodyOutcome.ok v => StubOutcome.ret v
    | BodyOutcome.panicked => StubOutcome.ret (evalExpr e)

lemma u32_lt_usize : U32_MOD < USIZE_MOD := by decide

lemma decIter_one (o : ComObj) : decIter o 1 = o.releaseTramp.2 := rfl

lemma incRet_eq (o : ComObj) (k : Nat) :
    incRet o k = ((incIter o k).refcount.count % U32_MOD + 1) % U32_MOD := rfl

lemma release_ret (rc : Refcount) :
    rc.release.1 = ((rc.count % U32_MOD) + (U32_MOD - 1)) % U32_MOD := rfl

lemma releaseTramp_alive_eq (o : ComObj) :
    (o.releaseTramp.2).alive =
      (if (o.refcount.release).1 = 0 then false else o.alive) := by
  simp only [ComObj.releaseTramp]

lemma addRefTramp_spec (o : ComObj) (h : o.refcount.count + 1 < U32_MOD) :
    o.addRefTramp.1 = o.refcount.count + 1 ∧
    o.addRefTramp.2.refcount.count = o.refcount.count + 1 ∧
    o.addRefTramp.2.alive = o.alive := by
  refine ⟨?_, ?_, rfl⟩ <;>
    simp only [ComObj.addRefTramp, Refcount.add_ref, U32_MOD, USIZE_MOD] at * <;>
    omega

lemma releaseTramp_spec (o : ComObj) (h1 : 1 ≤ o.refcount.count)
    (h2 : o.refcount.count ≤ U32_MOD) :
    o.releaseTramp.1 = o.refcount.count - 1 ∧
    o.releaseTramp.2.refcount.count = o.refcount.count - 1 ∧
    o.releaseTramp.2.alive =
      (if o.refcount.count = 1 then false else o.alive) := by
  refine ⟨?_, ?_, ?_⟩
  · simp only [ComObj.releaseTramp, Refcount.release, U32_MOD, USIZE_MOD] at *
    omega
  · simp only [ComObj.releaseTramp, Refcount.release, U32_MOD, USIZE_MOD] at *
    omega
  · simp only [ComObj.releaseTramp, Refcount.release, U32_MOD, USIZE_MOD] at *
    split_ifs with ha hb hb
    · rfl
    · exfalso; omega
    · exfalso; omega
    · rfl

lemma incIter_spec (o : ComObj) (k : Nat)
    (h : o.refcount.count + k < USIZE_MOD) :
    (incIter o k).refcount.count = o.refcount.count + k ∧
    (incIter o k).alive = o.alive := by
  induction k with
  | zero => exact ⟨rfl, rfl⟩
  | succ k ih =>
    have hk : o.refcount.count + k < USIZE_MOD := by omega
    obtain ⟨hc, ha⟩ := ih hk
    have hlt : (incIter o k).refcount.count + 1 < USIZE_MOD := by omega
    have step : (incIter o (k + 1)).refcount.count
          = (incIter o k).refcount.count + 1 ∧
        (incIter o (k + 1)).alive = (incIter o k).alive := by
      show ((incIter o k).addRefTramp.2).refcount.count
            = (incIter o k).refcount.count + 1 ∧
          ((incIter o k).addRefTramp.2).alive = (incIter o k).alive
      constructor
      · simp only [ComObj.addRefTramp, Refcount.add_ref, U32_MOD,
          USIZE_MOD] at *
        omega
      · rfl
    exact ⟨by omega, by rw [step.2, ha]⟩

lemma decIter_spec (o : ComObj) (j : Nat) (h1 : j < o.refcount.count)
    (h2 : o.refcount.count ≤ U32_MOD) :
    (decIter o j).refcount.count = o.refcount.count - j ∧
    (decIter o j).alive = o.alive := by
  induction j with
  | zero => exact ⟨rfl, rfl⟩
  | succ j ih =>
    have hj : j < o.refcount.count := by omega
    obtain ⟨hc, ha⟩ := ih hj
    have hge : 1 ≤ (decIter o j).refcount.count := by omega
    have hle : (decIter o j).refcount.count ≤ U32_MOD := by omega
    obtain ⟨r1, r2, r3⟩ := releaseTramp_spec (decIter o j) hge hle
    refine ⟨?_, ?_⟩
    · show ((decIter o j).releaseTramp.2).refcount.count
          = o.refcount.count - (j + 1)
      omega
    · show ((decIter o j).releaseTramp.2).alive = o.alive
      rw [r3, ha, if_neg (by omega)]

/-- C1 (amended): starting from the generated object's initial refcount of 1,
for every `N` with `N + 1 < 2^32`, during `N` `AddRef` calls followed by
`N + 1` `Release` calls every call returns the running count immediately
after the operation, the box stays allocated through every earlier call, and
the deallocation branch is taken exactly on the last `Release`. -/
theorem c1_refcount_cycle (N k j : Nat) (hN : N + 1 < U32_MOD) (hk : k < N)
    (hj : j < N + 1) :
    incRet createRawState k = k + 2 ∧
    (incIter createRawState k).alive = true ∧
    decRet (incIter createRawState N) j = N - j ∧
    (decIter (incIter createRawState N) j).alive = true ∧
    (decIter (incIter createRawState N) (N + 1)).alive = false := by
  have hU := u32_lt_usize
  have h1 : createRawState.refcount.count = 1 := rfl
  have ha1 : createRawState.alive = true := rfl
  obtain ⟨hkc, hka⟩ := incIter_spec createRawState k (by omega)
  obtain ⟨hNc, hNa⟩ := incIter_spec createRawState N (by omega)
  have hret : incRet createRawState k = k + 2 := by
    have := addRefTramp_spec (incIter createRawState k) (by omega)
    show ((incIter createRawState k).addRefTramp).1 = k + 2
    omega
  obtain ⟨hjc, hja⟩ :=
    decIter_spec (incIter createRawState N) j (by omega) (by omega)
  obtain ⟨hNc2, hNa2⟩ :=
    decIter_spec (incIter createRawState N) N (by omega) (by omega)
  have hdret : decRet (incIter createRawState N) j = N - j := by
    obtain ⟨r1, _, _⟩ :=
      releaseTramp_spec (decIter (incIter createRawState N) j)
        (by omega) (by omega)
    show ((decIter (incIter createRawState N) j).releaseTramp).1 = N - j
    omega
  have hlast : (decIter (incIter createRawState N) (N + 1)).alive = false := by
    obtain ⟨_, _, r3⟩ :=
      releaseTramp_spec (decIter (incIter createRawState N) N)
        (by omega) (by omega)
    show ((decIter (incIter createRawState N) N).releaseTramp.2).alive = false
    rw [r3, if_pos (by omega)]
  exact ⟨hret, by rw [hka, ha1], hdret, by rw [hja, hNa, ha1], hlast⟩

theorem c1_refcount_cycle_witness :
    (2 + 1 < U32_MOD ∧ 1 < 2 ∧ 1 < 2 + 1) ∧
    (incRet createRawState 1 = 1 + 2 ∧
      (incIter createRawState 1).alive = true ∧
      decRet (incIter createRawState 2) 1 = 2 - 1 ∧
      (decIter (incIter createRawState 2) 1).alive = true ∧
      (decIter (incIter createRawState 2) (2 + 1)).alive = false) :=
  ⟨⟨by decide, by decide, by decide⟩,
    c1_refcount_cycle 2 1 1 (by decide) (by decide) (by decide)⟩

/-- C1 counterexample: with the refcount starting at 1, the `(2^32-1)`-th
`AddRef` returns `0` although the running count immediately after it is
`2^32`; and after `2^32` `AddRef` calls the deallocation branch is already
taken on the first `Release`, not on the `(2^32+1)`-th. -/
theorem c1_counterexample :
    incRet createRawState (U32_MOD - 2) = 0 ∧
    (incIter createRawState (U32_MOD - 1)).refcount.count = U32_MOD ∧
    (0 : Nat) ≠ U32_MOD ∧
    (decIter (incIter createRawState U32_MOD) 1).alive = false ∧
    (1 : Nat) ≠ U32_MOD + 1 := by
  have hU := u32_lt_usize
  have h1 : createRawState.refcount.count = 1 := rfl
  obtain ⟨hc1, -⟩ := incIter_spec createRawState (U32_MOD - 2)
    (by simp only [U32_MOD, USIZE_MOD] at *; omega)
  obtain ⟨hc2, -⟩ := incIter_spec createRawState (U32_MOD - 1)
    (by simp only [U32_MOD, USIZE_MOD] at *; omega)
  obtain ⟨hc3, ha3⟩ := incIter_spec createRawState U32_MOD
    (by simp only [U32_MOD, USIZE_MOD] at *; omega)
  refine ⟨?_, by simp only [U32_MOD] at *; omega, by decide, ?_, by decide⟩
  · rw [incRet_eq, hc1, h1]
    simp only [U32_MOD]
    try omega
  · have hcond : ((incIter createRawState U32_MOD).refcount.release).1 = 0 := by
      rw [release_ret, hc3, h1]
      simp only [U32_MOD]
      try omega
    rw [decIter_one, releaseTramp_alive_eq, if_pos hcond]

/-- C10: the count is stored pointer-sized (the store wraps at `2^64`) but
`add_ref` returns `(c + 1) mod 2^32` and `release` returns `(c - 1) mod 2^32`;
in particular `add_ref` on a count of `2^32 - 1` returns `0`, and the
`Release` trampoline's zero test (the deallocation gate) operates on this
truncated value. -/
theorem c10_truncation (rc : Refcount) (o : ComObj) (h : 1 ≤ rc.count) :
    rc.add_ref.1 = (rc.count + 1) % U32_MOD ∧
    rc.add_ref.2.count = (rc.count + 1) % USIZE_MOD ∧
    rc.release.1 = (rc.count - 1) % U32_MOD ∧
    (Refcount.add_ref ⟨U32_MOD - 1⟩).1 = 0 ∧
    (o.releaseTramp.2).alive =
      (if (o.refcount.release).1 = 0 then false else o.alive) := by
  refine ⟨?_, rfl, ?_, by decide, releaseTramp_alive_eq o⟩
  · simp only [Refcount.add_ref, U32_MOD]
    omega
  · simp only [Refcount.release, U32_MOD]
    omega

theorem c10_truncation_witness :
    1 ≤ (Refcount.mk 5).count ∧
    ((Refcount.mk 5).add_ref.1 = ((Refcount.mk 5).count + 1) % U32_MOD ∧
     (Refcount.mk 5).add_ref.2.count = ((Refcount.mk 5).count + 1) % USIZE_MOD ∧
     (Refcount.mk 5).release.1 = ((Refcount.mk 5).count - 1) % U32_MOD ∧
     (Refcount.add_ref ⟨U32_MOD - 1⟩).1 = 0 ∧
     ((ComObj.mk ⟨1⟩ true).releaseTramp.2).alive =
       (if ((ComObj.mk ⟨1⟩ true).refcount.release).1 = 0 then false
        else (ComObj.mk ⟨1⟩ true).alive)) :=
  ⟨by decide, c10_truncation ⟨5⟩ ⟨⟨1⟩, true⟩ (by decide)⟩

/-- C7: calling the `QueryInterface` trampoline with a null output slot
returns `E_POINTER`, writes nothing and leaves the object (in particular its
refcount) unchanged, independently of the queried identifier — the null
check happens before any identifier comparison. -/
theorem c7_null_slot (o : ComObj) (iids : List Nat) (riid : Nat) :
    queryInterfaceTramp o iids riid true =
      (E_POINTER, SlotWrite.untouched, o) := rfl

lemma qi_nonnull (o : ComObj) (iids : List Nat) (riid : Nat) :
    queryInterfaceTramp o iids riid false =
      (if riid ∈ iids then (S_OK, SlotWrite.wroteThis, o)
       else (E_NOINTERFACE, SlotWrite.wroteNull, o)) := by
  have hany : ((iids.any fun i => riid == i) = true) ↔ riid ∈ iids := by
    simp
  simp only [queryInterfaceTramp, Bool.false_eq_true, if_false]
  by_cases hm : riid ∈ iids
  · rw [if_pos (hany.mpr hm), if_pos hm]
  · rw [if_neg hm, if_neg]
    intro hcontra
    exact hm (hany.mp hcontra)

/-- C2: with a non-null output slot, the `QueryInterface` trampoline
succeeds (writing the object pointer and returning `S_OK`) exactly when the
queried identifier is one of the identifiers of the object's interface set,
and otherwise writes a null pointer and returns `E_NOINTERFACE`; every
interface set produced by `determine_interfaces` contains `IUnknown`, so the
query for `IUnknown`'s identifier always succeeds. -/
theorem c2_query_interface (o : ComObj) (iids : List Nat) (riid : Nat)
    (e : Option (List String)) (vt : String) (l : List String)
    (hl : determine_interfaces e vt = Except.ok l) :
    queryInterfaceTramp o iids riid false =
      (if riid ∈ iids then (S_OK, SlotWrite.wroteThis, o)
       else (E_NOINTERFACE, SlotWrite.wroteNull, o)) ∧
    ("IUnknown") ∈ l ∧
    ∀ uuidof : String → Nat,
      queryInterfaceTramp o (l.map uuidof) (uuidof ("IUnknown")) false =
        (S_OK, SlotWrite.wroteThis, o) := by
  have hmem : ("IUnknown") ∈ l := by
    cases e with
    | some l0 =>
      simp only [determine_interfaces] at hl
      injection hl with hl
      rw [← hl]
      exact List.mem_cons_self _ _
    | none =>
      simp only [determine_interfaces] at hl
      by_cases hv : vt.endsWith ("Vtbl")
      · rw [if_pos hv] at hl
        by_cases hu : vt.dropRight 4 = ("IUnknown")
        · rw [if_pos hu] at hl
          injection hl with hl
          rw [← hl]
          exact List.mem_cons_self _ _
        · rw [if_neg hu] at hl
          injection hl with hl
          rw [← hl]
          exact List.mem_cons_self _ _
      · rw [if_neg hv] at hl
        cases hl
  refine ⟨qi_nonnull o iids riid, hmem, ?_⟩
  intro uuidof
  have : uuidof ("IUnknown") ∈ l.map uuidof :=
    List.mem_map_of_mem uuidof hmem
  rw [qi_nonnull, if_pos this]

theorem c2_query_interface_witness :
    determine_interfaces (some [("IFoo")]) ("X") =
      Except.ok [("IUnknown"), ("IFoo")] ∧
    (queryInterfaceTramp createRawState [7, 11] 11 false =
      (if 11 ∈ [7, 11] then (S_OK, SlotWrite.wroteThis, createRawState)
       else (E_NOINTERFACE, SlotWrite.wroteNull, createRawState)) ∧
     ("IUnknown") ∈ [("IUnknown"), ("IFoo")] ∧
     ∀ uuidof : String → Nat,
       queryInterfaceTramp createRawState
         ([("IUnknown"), ("IFoo")].map uuidof) (uuidof ("IUnknown")) false =
         (S_OK, SlotWrite.wroteThis, createRawState)) :=
  ⟨rfl, c2_query_interface createRawState [7, 11] 11 (some [("IFoo")]) ("X")
    [("IUnknown"), ("IFoo")] rfl⟩

/-- C9: a successful identity query (matching identifier, non-null output
slot) returns the object state unchanged — the `QueryInterface` trampoline
never increments the reference count even when it writes the object pointer
and reports success. -/
theorem c9_query_frame (o : ComObj) (iids : List Nat) (riid : Nat)
    (h : riid ∈ iids) :
    queryInterfaceTramp o iids riid false = (S_OK, SlotWrite.wroteThis, o) ∧
    ((queryInterfaceTramp o iids riid false).2.2).refcount.count
      = o.refcount.count := by
  rw [qi_nonnull, if_pos h]
  exact ⟨rfl, rfl⟩

theorem c9_query_frame_witness :
    (6 ∈ [4, 6]) ∧
    (queryInterfaceTramp ⟨⟨3⟩, true⟩ [4, 6] 6 false =
      (S_OK, SlotWrite.wroteThis, ⟨⟨3⟩, true⟩) ∧
     ((queryInterfaceTramp ⟨⟨3⟩, true⟩ [4, 6] 6 false).2.2).refcount.count
       = (ComObj.mk ⟨3⟩ true).refcount.count) :=
  ⟨by decide, c9_query_frame ⟨⟨3⟩, true⟩ [4, 6] 6 (by decide)⟩

lemma splitSegs_exists (cs : List Char) : ∃ s ss, splitSegs cs = s :: ss := by
  cases hsp : splitSegs cs with
  | nil =>
    exfalso
    cases cs with
    | nil => simp [splitSegs] at hsp
    | cons c r =>
      simp only [splitSegs] at hsp
      by_cases hc : c = '_'
      · rw [if_pos hc] at hsp
        cases hsp
      · rw [if_neg hc] at hsp
        revert hsp
        cases splitSegs r <;> intro hsp <;> cases hsp
  | cons s ss => exact ⟨s, ss, rfl⟩

lemma splitSegs_cons_ne (c : Char) (rest : List Char) (h : ¬ c = '_')
    (s : List Char) (ss : List (List Char)) (hs : splitSegs rest = s :: ss) :
    splitSegs (c :: rest) = (c :: s) :: ss := by
  simp only [splitSegs, if_neg h, hs]

lemma splitSegs_cons_underscore (rest : List Char) :
    splitSegs ('_' :: rest) = [] :: splitSegs rest := by
  simp [splitSegs]

lemma isLowerC_false_of_digit {c : Char} (h : isDigitC c = true) :
    isLowerC c = false := by
  cases hb : isLowerC c with
  | false => rfl
  | true =>
    exfalso
    simp only [isDigitC, isLowerC, charIn, Bool.and_eq_true,
      decide_eq_true_eq] at h hb
    omega

lemma isLowerC_false_of_upper {c : Char} (h : isUpperC c = true) :
    isLowerC c = false := by
  cases hb : isLowerC c with
  | false => rfl
  | true =>
    exfalso
    simp only [isUpperC, isLowerC, charIn, Bool.and_eq_true,
      decide_eq_true_eq] at h hb
    omega

lemma amended_cons_not_lower (c : Char) (rest : List Char) (hne : ¬ c = '_')
    (hlow : isLowerC c = false) :
    amended_com_name (c :: rest) = c :: amended_com_name rest := by
  obtain ⟨s, ss, hs⟩ := splitSegs_exists rest
  simp only [amended_com_name, splitSegs_cons_ne c rest hne s ss hs, hs,
    List.map_cons, List.flatten_cons, capFirstLower, hlow,
    Bool.false_eq_true, if_false, List.cons_append]

lemma amended_cons_lower (c : Char) (rest : List Char)
    (hlow : isLowerC c = true) :
    amended_com_name (c :: rest) = toAsciiUpper c :: tailName rest := by
  have hne : ¬ c = '_' := by
    intro hc
    rw [hc] at hlow
    exact absurd hlow (by decide)
  obtain ⟨s, ss, hs⟩ := splitSegs_exists rest
  simp only [amended_com_name, splitSegs_cons_ne c rest hne s ss hs, hs,
    List.map_cons, List.flatten_cons, capFirstLower, hlow, if_true,
    List.cons_append, tailName]

lemma amended_cons_underscore (rest : List Char) :
    amended_com_name ('_' :: rest) = amended_com_name rest := by
  simp only [amended_com_name, splitSegs_cons_underscore, List.map_cons,
    List.flatten_cons, capFirstLower, List.nil_append]

lemma tailName_cons_ne (c : Char) (rest : List Char) (hne : ¬ c = '_') :
    tailName (c :: rest) = c :: tailName rest := by
  obtain ⟨s, ss, hs⟩ := splitSegs_exists rest
  simp only [tailName, splitSegs_cons_ne c rest hne s ss hs, hs,
    List.cons_append]

lemma tailName_cons_underscore (rest : List Char) :
    tailName ('_' :: rest) = amended_com_name rest := by
  simp only [tailName, splitSegs_cons_underscore, List.nil_append,
    amended_com_name]

lemma dnc_spec (cs : List Char) :
    (cs.all validComChar = true →
      determine_name_chars true cs = Except.ok (amended_com_name cs) ∧
      determine_name_chars false cs = Except.ok (tailName cs)) ∧
    (cs.all validComChar = false →
      determine_name_chars true cs = Except.error comNameErrMsg ∧
      determine_name_chars false cs = Except.error comNameErrMsg) := by
  induction cs with
  | nil => exact ⟨fun _ => ⟨rfl, rfl⟩, fun h => by simp at h⟩
  | cons c rest ih =>
    by_cases hd : isDigitC c = true
    · have hne : ¬ c = '_' := fun hc => absurd (hc ▸ hd) (by decide)
      have hlow : isLowerC c = false := isLowerC_false_of_digit hd
      have hvc : validComChar c = true := by simp [validComChar, hd]
      refine ⟨fun hall => ?_, fun hall => ?_⟩
      · have hall' : rest.all validComChar = true := by
          simp only [List.all_cons, Bool.and_eq_true] at hall
          exact hall.2
        obtain ⟨ihT, ihF⟩ := ih.1 hall'
        exact ⟨by simp only [determine_name_chars, hd, if_true, ihT,
            Except.map, amended_cons_not_lower c rest hne hlow],
          by simp only [determine_name_chars, hd, if_true, ihF, Except.map,
            tailName_cons_ne c rest hne]⟩
      · have hall' : rest.all validComChar = false := by
          simp only [List.all_cons, hvc, Bool.true_and] at hall
          exact hall
        obtain ⟨ihT, ihF⟩ := ih.2 hall'
        exact ⟨by simp only [determine_name_chars, hd, if_true, ihT,
            Except.map],
          by simp only [determine_name_chars, hd, if_true, ihF, Except.map]⟩
    · simp only [Bool.not_eq_true] at hd
      by_cases hu : isUpperC c = true
      · have hne : ¬ c = '_' := fun hc => absurd (hc ▸ hu) (by decide)
        have hlow : isLowerC c = false := isLowerC_false_of_upper hu
        have hvc : validComChar c = true := by simp [validComChar, hu]
        refine ⟨fun hall => ?_, fun hall => ?_⟩
        · have hall' : rest.all validComChar = true := by
            simp only [List.all_cons, Bool.and_eq_true] at hall
            exact hall.2
          obtain ⟨ihT, ihF⟩ := ih.1 hall'
          exact ⟨by simp only [determine_name_chars, hd, hu, if_true,
              Bool.false_eq_true, if_false, ihT, Except.map,
              amended_cons_not_lower c rest hne hlow],
            by simp only [determine_name_chars, hd, hu, if_true,
              Bool.false_eq_true, if_false, ihF, Except.map,
              tailName_cons_ne c rest hne]⟩
        · have hall' : rest.all validComChar = false := by
            simp only [List.all_cons, hvc, Bool.true_and] at hall
            exact hall
          obtain ⟨ihT, ihF⟩ := ih.2 hall'
          exact ⟨by simp only [determine_name_chars, hd, hu, if_true,
              Bool.false_eq_true, if_false, ihT, Except.map],
            by simp only [determine_name_chars, hd, hu, if_true,
              Bool.false_eq_true, if_false, ihF, Except.map]⟩
      · simp only [Bool.not_eq_true] at hu
        by_cases hl : isLowerC c = true
        · have hne : ¬ c = '_' := fun hc => absurd (hc ▸ hl) (by decide)
          have hvc : validComChar c = true := by simp [validComChar, hl]
          refine ⟨fun hall => ?_, fun hall => ?_⟩
          · have hall' : rest.all validComChar = true := by
              simp only [List.all_cons, Bool.and_eq_true] at hall
              exact hall.2
            obtain ⟨ihT, ihF⟩ := ih.1 hall'
            exact ⟨by simp only [determine_name_chars, hd, hu, hl,
                Bool.false_eq_true, if_false, Bool.not_true, Bool.and_false,
                Bool.and_true, if_true, ihF, Except.map,
                amended_cons_lower c rest hl],
              by simp only [determine_name_chars, hd, hu, hl,
                Bool.false_eq_true, if_false, Bool.not_false, Bool.and_true,
                if_true, ihF, Except.map, tailName_cons_ne c rest hne]⟩
          · have hall' : rest.all validComChar = false := by
              simp only [List.all_cons, hvc, Bool.true_and] at hall
              exact hall
            obtain ⟨ihT, ihF⟩ := ih.2 hall'
            exact ⟨by simp only [determine_name_chars, hd, hu, hl,
                Bool.false_eq_true, if_false, Bool.not_true, Bool.and_false,
                Bool.and_true, if_true, ihF, Except.map],
              by simp only [determine_name_chars, hd, hu, hl,
                Bool.false_eq_true, if_false, Bool.not_false, Bool.and_true,
                if_true, ihF, Except.map]⟩
        · simp only [Bool.not_eq_true] at hl
          by_cases hus : c = '_'
          · subst hus
            refine ⟨fun hall => ?_, fun hall => ?_⟩
            · have hall' : rest.all validComChar = true := by
                simp only [List.all_cons, Bool.and_eq_true] at hall
                exact hall.2
              obtain ⟨ihT, ihF⟩ := ih.1 hall'
              exact ⟨by simp only [determine_name_chars, hd, hu, hl,
                  Bool.false_eq_true, if_false, Bool.false_and, beq_self_eq_true,
                  if_true, ihT, amended_cons_underscore],
                by simp only [determine_name_chars, hd, hu, hl,
                  Bool.false_eq_true, if_false, Bool.false_and,
                  beq_self_eq_true, if_true, ihT, tailName_cons_underscore]⟩
            · have hall' : rest.all validComChar = false := by
                have hv : validComChar ('_') = true := by decide
                simp only [List.all_cons, hv, Bool.true_and] at hall
                exact hall
              obtain ⟨ihT, ihF⟩ := ih.2 hall'
              exact ⟨by simp only [determine_name_chars, hd, hu, hl,
                  Bool.false_eq_true, if_false, Bool.false_and,
                  beq_self_eq_true, if_true, ihT],
                by simp only [determine_name_chars, hd, hu, hl,
                  Bool.false_eq_true, if_false, Bool.false_and,
                  beq_self_eq_true, if_true, ihT]⟩
          · have hbe : (c == '_') = false := by
              rw [beq_eq_false_iff_ne]
              exact hus
            have hvc : validComChar c = false := by
              simp [validComChar, hd, hu, hl, hbe]
            refine ⟨fun hall => ?_, fun _ => ?_⟩
            · exfalso
              simp only [List.all_cons, hvc, Bool.false_and] at hall
              cases hall
            · exact ⟨by simp only [determine_name_chars, hd, hu, hl, hbe,
                  Bool.false_eq_true, if_false, Bool.false_and],
                by simp only [determine_name_chars, hd, hu, hl, hbe,
                  Bool.false_eq_true, if_false, Bool.false_and]⟩

/-- C4 (amended): an explicit `#[com_name]` override always takes
precedence; otherwise, for an identifier of alphanumerics and underscores,
the derived name upper-cases — within each underscore-delimited segment —
the first lowercase letter (characters before it, digits and uppercase
letters, are copied unchanged), copies the rest unchanged and removes the
underscores (so `get_file_size` maps to `GetFileSize` and
`read_file_fragment` to `ReadFileFragment`); any other character is a
generation-time error requesting an explicit override. -/
theorem c4_name_derivation (ov ident : String) :
    determine_name (some ov) ident = Except.ok ov ∧
    determine_name none ident =
      (if ident.data.all validComChar = true then
        Except.ok (String.mk (amended_com_name ident.data))
       else Except.error comNameErrMsg) ∧
    determine_name none ("get_file_size") = Except.ok ("GetFileSize") ∧
    determine_name none ("read_file_fragment") =
      Except.ok ("ReadFileFragment") := by
  refine ⟨rfl, ?_, rfl, rfl⟩
  by_cases h : ident.data.all validComChar = true
  · rw [if_pos h]
    obtain ⟨hT, -⟩ := (dnc_spec ident.data).1 h
    simp only [determine_name, hT, Except.map]
  · rw [if_neg h]
    have h' : ident.data.all validComChar = false := by
      cases hb : ident.data.all validComChar
      · rfl
      · exact absurd hb h
    obtain ⟨hT, -⟩ := (dnc_spec ident.data).2 h'
    simp only [determine_name, hT, Except.map]

/-- C4 counterexample: on the identifier `get_File` the code derives
`GetFIle` (the stateful loop also upper-cases the `i`, because an uppercase
letter does not clear the segment-start flag), while the specified
transform — upper-case the first letter of each underscore-delimited
segment, leave the remaining letters unchanged — yields `GetFile`. -/
theorem c4_counterexample :
    determine_name none ("get_File") = Except.ok ("GetFIle") ∧
    String.mk (spec_derive_name (("get_File").data)) = ("GetFile") ∧
    (("GetFIle") : String) ≠ ("GetFile") := ⟨rfl, rfl, by decide⟩

/-- C6: the resolved interface set is the explicit `#[interfaces(...)]` list
verbatim with `IUnknown` prepended when such a list is supplied; otherwise
the name obtained by stripping the `Vtbl` suffix from the `VTable` field's
generic argument, where a recovered `IUnknown` yields the set containing
only `IUnknown`, any other recovered name yields the pair
`IUnknown, recovered`, and a type name lacking the suffix is a
generation-time error. -/
theorem c6_interface_set (l : List String) (vt : String) :
    determine_interfaces (some l) vt = Except.ok (("IUnknown") :: l) ∧
    determine_interfaces none vt =
      (if vt.endsWith ("Vtbl") then
        (if vt.dropRight 4 = ("IUnknown") then Except.ok [("IUnknown")]
         else Except.ok [("IUnknown"), vt.dropRight 4])
       else Except.error
         ("Could not determine the COM interfaces you would like to implement.")) :=
  ⟨rfl, rfl⟩

/-- C5: when the method body panics, the `abort` policy catches the unwind
and terminates after writing the method-specific diagnostic, the
convert-to-result policy catches the unwind and returns the supplied
fallback expression's value, and the default (no `#[panic]` attribute — as
computed by `determine_panic_behavior`) performs no guarding, letting the
unwind cross the boundary; when the body does not panic, all three policies
return the body's result unchanged. -/
theorem c5_panic_policy (α : Type) (v : α) (evalE : String → α)
    (e ty fn msg : String) (p : PanicPolicy) (names : List String) :
    quote_stub_call PanicPolicy.abort (abort_message ty fn) evalE
        (BodyOutcome.panicked) = StubOutcome.aborted (abort_message ty fn) ∧
    quote_stub_call (PanicPolicy.result e) msg evalE (BodyOutcome.panicked)
      = StubOutcome.ret (evalE e) ∧
    quote_stub_call PanicPolicy.nothing msg evalE (BodyOutcome.panicked)
      = StubOutcome.unwound ∧
    quote_stub_call p msg evalE (BodyOutcome.ok v) = StubOutcome.ret v ∧
    determine_panic_behavior (names.map MethodAttr.comName)
      = PanicPolicy.nothing := by
  refine ⟨rfl, rfl, rfl, by cases p <;> rfl, ?_⟩
  induction names with
  | nil => rfl
  | cons n rest ih => simpa [determine_panic_behavior] using ih

lemma mutErrMsg_data (id : String) :
    (mutErrMsg id).data =
      ("A COM method must take \x60self\x60 by ref. (fn ").data
        ++ (id.data ++ (")").data) := by
  simp [mutErrMsg, String.data_append, List.append_assoc]

lemma mutErrMsg_take (id : String) :
    ((mutErrMsg id).data.take 2) = [('A'), (' ')] := by
  rw [mutErrMsg_data, List.take_append_of_le_length (by decide)]
  decide

lemma mutErr_ne_variadic (id : String) : mutErrMsg id ≠ variadicMsg := by
  intro h
  have h2 : (mutErrMsg id).data.take 2 = variadicMsg.data.take 2 := by rw [h]
  rw [mutErrMsg_take] at h2
  exact absurd h2 (by decide)

lemma mutErr_ne_generic (id : String) : mutErrMsg id ≠ genericMsg := by
  intro h
  have h2 : (mutErrMsg id).data.take 2 = genericMsg.data.take 2 := by rw [h]
  rw [mutErrMsg_take] at h2
  exact absurd h2 (by decide)

lemma parse_all_err (pre post : List MethodSig) (m : MethodSig)
    (hm : ∃ e0, ComFunction.parse m = Except.error e0) :
    ∃ msg, parse_all (pre ++ m :: post) = Except.error msg := by
  induction pre with
  | nil =>
    obtain ⟨e0, he⟩ := hm
    exact ⟨e0, by simp only [List.nil_append, parse_all, he]⟩
  | cons p rest ih =>
    obtain ⟨msg1, hmsg⟩ := ih
    cases hp : ComFunction.parse p with
    | error e => exact ⟨e, by simp only [List.cons_append, parse_all, hp]⟩
    | ok f =>
      exact ⟨msg1, by
        simp only [List.cons_append, parse_all, hp, List.append_eq, hmsg]⟩

/-- C8: a method whose first parameter is not a by-reference `self`
receiver, a variadic method, and a generic method are each rejected at
generation time with their own specific diagnostics (all pairwise
distinct), and the presence of any such method makes `parse_all` — and with
it generation of the whole interface block — fail. -/
theorem c8_malformed_rejection (r : Receiver) (g : Nat) (w cst a : Bool)
    (id : String) (attrs : List MethodAttr) (pre post : List MethodSig) :
    ComFunction.parse ⟨id, r, true, g, w, cst, a, attrs⟩
      = Except.error variadicMsg ∧
    ComFunction.parse ⟨id, r, false, g + 1, w, cst, a, attrs⟩
      = Except.error genericMsg ∧
    ComFunction.parse
        ⟨id, Receiver.selfValue, false, 0, false, false, false, attrs⟩
      = Except.error (mutErrMsg id) ∧
    ComFunction.parse
        ⟨id, Receiver.noReceiver, false, 0, false, false, false, attrs⟩
      = Except.error (mutErrMsg id) ∧
    variadicMsg ≠ genericMsg ∧
    mutErrMsg id ≠ variadicMsg ∧
    mutErrMsg id ≠ genericMsg ∧
    (∃ msg, parse_all (pre ++ (⟨id, r, true, g, w, cst, a, attrs⟩ : MethodSig)
        :: post) = Except.error msg) := by
  refine ⟨rfl, ?_, rfl, rfl, by decide, mutErr_ne_variadic id,
    mutErr_ne_generic id, parse_all_err pre post _ ⟨variadicMsg, rfl⟩⟩
  simp only [ComFunction.parse, validate_sig]
  norm_num

lemma find_of_filter_len_one {p : StructField → Bool} {l : List StructField}
    (h : (l.filter p).length = 1) :
    ∃ u, l.find? p = some u ∧ p u = true ∧ u ∈ l ∧
      ∀ x ∈ l, p x = true → x = u := by
  induction l with
  | nil => simp at h
  | cons a t ih =>
    cases hp : p a with
    | true =>
      have ht : t.filter p = [] := by
        rw [List.filter_cons_of_pos hp] at h
        simp only [List.length_cons, Nat.add_left_eq_self] at h
        exact List.length_eq_zero.mp h
      refine ⟨a, List.find?_cons_of_pos t hp, hp, List.mem_cons_self a t, ?_⟩
      intro x hx hpx
      rcases List.mem_cons.mp hx with h' | h'
      · exact h'
      · exact absurd hpx (List.filter_eq_nil_iff.mp ht x h')
    | false =>
      rw [List.filter_cons_of_neg (by simp [hp])] at h
      obtain ⟨u, hf, hpu, hmem, huniq⟩ := ih h
      refine ⟨u, ?_, hpu, List.mem_cons_of_mem a hmem, ?_⟩
      · rw [List.find?_cons_of_neg t (by simp [hp]), hf]
      · intro x hx hpx
        rcases List.mem_cons.mp hx with h' | h'
        · rw [h', hp] at hpx
          cases hpx
        · exact huniq x h' hpx

/-- C3: for a valid schema (exactly one `VTable`-typed field, exactly one
`Refcount`-typed field, distinct field names), the generated `create_raw`
constructor takes exactly the payload fields — every other field — as
parameters in declaration order, and the constructed object's refcount
reads exactly 1. -/
theorem c3_create_raw (fields : List StructField)
    (h1 : (fields.filter (fun f => f.stem == some ("VTable"))).length = 1)
    (h2 : (fields.filter (fun f => f.stem == some ("Refcount"))).length = 1)
    (h3 : (fields.map StructField.name).Nodup) :
    create_raw_params fields =
      Except.ok ((fields.filter (fun f =>
        !(f.stem == some ("VTable")) && !(f.stem == some ("Refcount")))).map
        (fun f => (f.name, f.ty))) ∧
    createRawState.refcount.count = 1 := by
  obtain ⟨uv, hfv, hpv, hmv, huv⟩ := find_of_filter_len_one h1
  obtain ⟨ur, hfr, hpr, hmr, hur⟩ := find_of_filter_len_one h2
  have hinj : ∀ x ∈ fields, ∀ y ∈ fields, x.name = y.name → x = y :=
    fun x hx y hy hxy => List.inj_on_of_nodup_map h3 hx hy hxy
  have hvm : determine_vtbl_member fields = Except.ok uv.name := by
    simp only [determine_vtbl_member, hfv]
  have hrm : determine_refcount_member fields = Except.ok ur.name := by
    simp only [determine_refcount_member, hfr]
  have hfilter : parse_members fields uv.name ur.name =
      fields.filter (fun f =>
        !(f.stem == some ("VTable")) && !(f.stem == some ("Refcount"))) := by
    apply List.filter_congr
    intro x hx
    have e1 : (x.name == uv.name) = (x.stem == some ("VTable")) := by
      rw [Bool.eq_iff_iff, beq_iff_eq, beq_iff_eq]
      constructor
      · intro h'
        rw [hinj x hx uv hmv h']
        exact beq_iff_eq.mp hpv
      · intro h'
        rw [huv x hx (by rw [beq_iff_eq]; exact h')]
    have e2 : (x.name == ur.name) = (x.stem == some ("Refcount")) := by
      rw [Bool.eq_iff_iff, beq_iff_eq, beq_iff_eq]
      constructor
      · intro h'
        rw [hinj x hx ur hmr h']
        exact beq_iff_eq.mp hpr
      · intro h'
        rw [hur x hx (by rw [beq_iff_eq]; exact h')]
    rw [e1, e2]
  refine ⟨?_, rfl⟩
  simp only [create_raw_params, hvm, hrm]
  rw [hfilter]

theorem c3_create_raw_witness :
    (([⟨"vtbl", "VTable<IUnknownVtbl>", some ("VTable")⟩,
       ⟨"refcount", "Refcount", some ("Refcount")⟩,
       ⟨"write_time", "u64", some ("u64")⟩,
       ⟨"file_data", "Vec<u8>", some ("Vec")⟩] :
        List StructField).filter
          (fun f => f.stem == some ("VTable"))).length = 1 ∧
    (([⟨"vtbl", "VTable<IUnknownVtbl>", some ("VTable")⟩,
       ⟨"refcount", "Refcount", some ("Refcount")⟩,
       ⟨"write_time", "u64", some ("u64")⟩,
       ⟨"file_data", "Vec<u8>", some ("Vec")⟩] :
        List StructField).filter
          (fun f => f.stem == some ("Refcount"))).length = 1 ∧
    (([⟨"vtbl", "VTable<IUnknownVtbl>", some ("VTable")⟩,
       ⟨"refcount", "Refcount", some ("Refcount")⟩,
       ⟨"write_time", "u64", some ("u64")⟩,
       ⟨"file_data", "Vec<u8>", some ("Vec")⟩] :
        List StructField).map StructField.name).Nodup ∧
    (create_raw_params
        [⟨"vtbl", "VTable<IUnknownVtbl>", some ("VTable")⟩,
         ⟨"refcount", "Refcount", some ("Refcount")⟩,
         ⟨"write_time", "u64", some ("u64")⟩,
         ⟨"file_data", "Vec<u8>", some ("Vec")⟩] =
      Except.ok ((([⟨"vtbl", "VTable<IUnknownVtbl>", some ("VTable")⟩,
         ⟨"refcount", "Refcount", some ("Refcount")⟩,
         ⟨"write_time", "u64", some ("u64")⟩,
         ⟨"file_data", "Vec<u8>", some ("Vec")⟩] :
          List StructField).filter (fun f =>
        !(f.stem == some ("VTable")) && !(f.stem == some ("Refcount")))).map
        (fun f => (f.name, f.ty))) ∧
    createRawState.refcount.count = 1) :=
  ⟨by decide, by decide, by decide,
    c3_create_raw _ (by decide) (by decide) (by decide)⟩
